import Mathlib

/-!
Shallow embedding of the request-admission and asynchronous job pipeline of
the webshotify service, together with theorems settling the specification
claims about it.

Conventions used throughout:
* Wall-clock time (`time.time()`, `datetime.now()`) is modelled by integer
  seconds (`Int`).  All comparisons in the source are order comparisons on
  timestamps, so integer time is faithful for every claim below.
* Python `None`-able values are modelled by `Option`.
* Python dictionaries keyed by strings are modelled as functions
  `String → Option _` (with `defaultdict(deque)` as `String → List Int`,
  every absent key reading as the empty window).
* A raised exception in a modelled function is represented by `Option`
  (`none` = the call raises); external effects (HTTP posts, file copies,
  JSON parsing) are oracles passed in as explicit arguments.
-/

/-! ## Rate limiter (src/rate_limiter.py) -/

/-- State of `RateLimiter`: the two per-credential timestamp windows plus the
configured limits (defaults 10/minute and 60/hour). -/
structure RateLimiter where
  requests_per_minute : Nat
  requests_per_hour : Nat
  minute_requests : String → List Int
  hour_requests : String → List Int

/-- Fresh limiter: both `defaultdict(deque)` maps are empty. -/
def RateLimiter.init (rpm rph : Nat) : RateLimiter :=
  ⟨rpm, rph, fun _ => [], fun _ => []⟩

/-- One window prune: `while q and q[0] < cutoff: q.popleft()`. -/
def cleanupWindow (cutoff : Int) (q : List Int) : List Int :=
  q.dropWhile (fun t => decide (t < cutoff))

/-- In-place mutation of one key of a `defaultdict(deque)` map. -/
def updateKey (f : String → List Int) (key : String) (q : List Int) : String → List Int :=
  fun k => if k = key then q else f k

/-- `RateLimiter._cleanup_old_requests`: prune both windows of one key in
place (the deques are mutated even when the subsequent check denies). -/
def RateLimiter.cleanup_old_requests (rl : RateLimiter) (key : String) (now : Int) :
    RateLimiter :=
  { rl with
    minute_requests :=
      updateKey rl.minute_requests key (cleanupWindow (now - 60) (rl.minute_requests key))
    hour_requests :=
      updateKey rl.hour_requests key (cleanupWindow (now - 3600) (rl.hour_requests key)) }

/-- `RateLimiter.check_rate_limit`: prune, compare both pruned lengths
against the limits, and on admission append `now` to both windows. -/
def RateLimiter.check_rate_limit (rl : RateLimiter) (key : String) (now : Int) :
    Bool × RateLimiter :=
  let rl1 := rl.cleanup_old_requests key now
  let minute_count := (rl1.minute_requests key).length
  let hour_count := (rl1.hour_requests key).length
  if rl1.requests_per_minute ≤ minute_count then (false, rl1)
  else if rl1.requests_per_hour ≤ hour_count then (false, rl1)
  else
    (true,
      { rl1 with
        minute_requests := updateKey rl1.minute_requests key (rl1.minute_requests key ++ [now])
        hour_requests := updateKey rl1.hour_requests key (rl1.hour_requests key ++ [now]) })

/-- `RateLimiter.get_retry_after`.  The result is `none` when Python would
raise `IndexError` (indexing `[0]` of an empty deque, possible only when a
limit is configured as 0); otherwise `some` of the returned seconds.  With
integer time `int(x)` is the identity. -/
def RateLimiter.get_retry_after (rl : RateLimiter) (key : String) (now : Int) :
    Option Int × RateLimiter :=
  let rl1 := rl.cleanup_old_requests key now
  if rl1.requests_per_minute ≤ (rl1.minute_requests key).length then
    match rl1.minute_requests key with
    | [] => (none, rl1)
    | oldest :: _ => (some (60 - (now - oldest) + 1), rl1)
  else if rl1.requests_per_hour ≤ (rl1.hour_requests key).length then
    match rl1.hour_requests key with
    | [] => (none, rl1)
    | oldest :: _ => (some (3600 - (now - oldest) + 1), rl1)
  else (some 0, rl1)

/-- Run a sequence of `check_rate_limit` calls for one credential, returning
the list of admission decisions and the final limiter state. -/
def runChecks (rl : RateLimiter) (key : String) : List Int → List Bool × RateLimiter
  | [] => ([], rl)
  | t :: ts =>
    let step := rl.check_rate_limit key t
    let rest := runChecks step.2 key ts
    (step.1 :: rest.1, rest.2)

/-! ### Rate limiter lemmas -/

theorem updateKey_same (f : String → List Int) (key : String) (q : List Int) :
    updateKey f key q key = q := by
  simp [updateKey]

theorem updateKey_other (f : String → List Int) (key : String) (q : List Int)
    (k : String) (hk : k ≠ key) : updateKey f key q k = f k := by
  simp [updateKey, hk]

/-- A sublist whose elements all survive the prune is still a sublist of the
pruned window. -/
theorem sublist_cleanupWindow {l1 l2 : List Int} (c : Int)
    (h : l1.Sublist l2) (hkeep : ∀ x ∈ l1, ¬ x < c) :
    l1.Sublist (cleanupWindow c l2) := by
  induction l2 generalizing l1 with
  | nil =>
    rw [List.sublist_nil.mp h]
    exact List.nil_sublist _
  | cons b bs ih =>
    rw [cleanupWindow, List.dropWhile_cons]
    simp only [decide_eq_true_eq]
    by_cases hb : b < c
    · rw [if_pos hb]
      cases h with
      | cons _ h' => exact ih h' hkeep
      | cons₂ _ h' => exact absurd hb (hkeep b (by simp))
    · rw [if_neg hb]
      exact h

theorem check_rate_limit_allowed_iff (rl : RateLimiter) (key : String) (now : Int) :
    (rl.check_rate_limit key now).1 = true ↔
      (cleanupWindow (now - 60) (rl.minute_requests key)).length < rl.requests_per_minute ∧
      (cleanupWindow (now - 3600) (rl.hour_requests key)).length < rl.requests_per_hour := by
  by_cases h1 : rl.requests_per_minute ≤ (cleanupWindow (now - 60) (rl.minute_requests key)).length
  · simp [RateLimiter.check_rate_limit, RateLimiter.cleanup_old_requests, updateKey_same, h1]
  · by_cases h2 :
      rl.requests_per_hour ≤ (cleanupWindow (now - 3600) (rl.hour_requests key)).length
    · simp [RateLimiter.check_rate_limit, RateLimiter.cleanup_old_requests, updateKey_same,
        h1, h2]
    · simp [RateLimiter.check_rate_limit, RateLimiter.cleanup_old_requests, updateKey_same,
        h1, h2]
      omega

theorem check_rate_limit_minute_eq (rl : RateLimiter) (key : String) (now : Int) :
    (rl.check_rate_limit key now).2.minute_requests key =
      cleanupWindow (now - 60) (rl.minute_requests key) ++
        (if (rl.check_rate_limit key now).1 then [now] else []) := by
  by_cases h1 : rl.requests_per_minute ≤ (cleanupWindow (now - 60) (rl.minute_requests key)).length
  · simp [RateLimiter.check_rate_limit, RateLimiter.cleanup_old_requests, updateKey_same, h1]
  · by_cases h2 :
      rl.requests_per_hour ≤ (cleanupWindow (now - 3600) (rl.hour_requests key)).length
    · simp [RateLimiter.check_rate_limit, RateLimiter.cleanup_old_requests, updateKey_same,
        h1, h2]
    · simp [RateLimiter.check_rate_limit, RateLimiter.cleanup_old_requests, updateKey_same,
        h1, h2]

theorem check_rate_limit_hour_eq (rl : RateLimiter) (key : String) (now : Int) :
    (rl.check_rate_limit key now).2.hour_requests key =
      cleanupWindow (now - 3600) (rl.hour_requests key) ++
        (if (rl.check_rate_limit key now).1 then [now] else []) := by
  by_cases h1 : rl.requests_per_minute ≤ (cleanupWindow (now - 60) (rl.minute_requests key)).length
  · simp [RateLimiter.check_rate_limit, RateLimiter.cleanup_old_requests, updateKey_same, h1]
  · by_cases h2 :
      rl.requests_per_hour ≤ (cleanupWindow (now - 3600) (rl.hour_requests key)).length
    · simp [RateLimiter.check_rate_limit, RateLimiter.cleanup_old_requests, updateKey_same,
        h1, h2]
    · simp [RateLimiter.check_rate_limit, RateLimiter.cleanup_old_requests, updateKey_same,
        h1, h2]

theorem check_rate_limit_other_keys (rl : RateLimiter) (key : String) (now : Int)
    (k : String) (hk : k ≠ key) :
    (rl.check_rate_limit key now).2.minute_requests k = rl.minute_requests k ∧
    (rl.check_rate_limit key now).2.hour_requests k = rl.hour_requests k := by
  by_cases h1 : rl.requests_per_minute ≤ (cleanupWindow (now - 60) (rl.minute_requests key)).length
  · simp [RateLimiter.check_rate_limit, RateLimiter.cleanup_old_requests, updateKey_same,
      updateKey, h1, hk]
  · by_cases h2 :
      rl.requests_per_hour ≤ (cleanupWindow (now - 3600) (rl.hour_requests key)).length
    · simp [RateLimiter.check_rate_limit, RateLimiter.cleanup_old_requests, updateKey_same,
        updateKey, h1, h2, hk]
    · simp [RateLimiter.check_rate_limit, RateLimiter.cleanup_old_requests, updateKey_same,
        updateKey, h1, h2, hk]

theorem check_rate_limit_limits (rl : RateLimiter) (key : String) (now : Int) :
    (rl.check_rate_limit key now).2.requests_per_minute = rl.requests_per_minute ∧
    (rl.check_rate_limit key now).2.requests_per_hour = rl.requests_per_hour := by
  by_cases h1 : rl.requests_per_minute ≤ (cleanupWindow (now - 60) (rl.minute_requests key)).length
  · simp [RateLimiter.check_rate_limit, RateLimiter.cleanup_old_requests, updateKey_same, h1]
  · by_cases h2 :
      rl.requests_per_hour ≤ (cleanupWindow (now - 3600) (rl.hour_requests key)).length
    · simp [RateLimiter.check_rate_limit, RateLimiter.cleanup_old_requests, updateKey_same,
        h1, h2]
    · simp [RateLimiter.check_rate_limit, RateLimiter.cleanup_old_requests, updateKey_same,
        h1, h2]

theorem check_rate_limit_denied_of_minute_full (rl : RateLimiter) (key : String) (now : Int)
    (h : rl.requests_per_minute ≤ (cleanupWindow (now - 60) (rl.minute_requests key)).length) :
    (rl.check_rate_limit key now).1 = false := by
  have hiff := check_rate_limit_allowed_iff rl key now
  rcases hb : (rl.check_rate_limit key now).1 with _ | _
  · rfl
  · exact absurd (hiff.mp hb).1 (by omega)

theorem runChecks_limits (ts : List Int) :
    ∀ (rl : RateLimiter) (key : String),
      (runChecks rl key ts).2.requests_per_minute = rl.requests_per_minute ∧
      (runChecks rl key ts).2.requests_per_hour = rl.requests_per_hour := by
  induction ts with
  | nil => intro rl key; exact ⟨rfl, rfl⟩
  | cons t ts ih =>
    intro rl key
    have h1 := check_rate_limit_limits rl key t
    have h2 := ih (rl.check_rate_limit key t).2 key
    simp only [runChecks]
    omega

theorem runChecks_minute_sublist (ts : List Int) :
    ∀ (rl : RateLimiter) (key : String) (a : Int) (l0 : List Int),
      (∀ x ∈ ts, a ≤ x ∧ x ≤ a + 60) →
      (∀ x ∈ l0, a ≤ x) →
      l0.Sublist (rl.minute_requests key) →
      (runChecks rl key ts).1 = List.replicate ts.length true →
      (l0 ++ ts).Sublist ((runChecks rl key ts).2.minute_requests key) := by
  induction ts with
  | nil =>
    intro rl key a l0 _ _ hsub _
    simpa using hsub
  | cons t ts ih =>
    intro rl key a l0 hbound hl0 hsub hadm
    simp only [runChecks, List.length_cons, List.replicate_succ, List.cons.injEq] at hadm
    obtain ⟨hadm1, hadm2⟩ := hadm
    have hmin := check_rate_limit_minute_eq rl key t
    rw [hadm1] at hmin
    simp only [if_true] at hmin
    have ht : a ≤ t ∧ t ≤ a + 60 := hbound t (by simp)
    have hsub1 : l0.Sublist (cleanupWindow (t - 60) (rl.minute_requests key)) := by
      refine sublist_cleanupWindow _ hsub (fun x hx => ?_)
      have := hl0 x hx
      omega
    have hsub2 : (l0 ++ [t]).Sublist ((rl.check_rate_limit key t).2.minute_requests key) := by
      rw [hmin]
      exact hsub1.append (List.Sublist.refl [t])
    have hl0' : ∀ x ∈ l0 ++ [t], a ≤ x := by
      intro x hx
      rcases List.mem_append.mp hx with h | h
      · exact hl0 x h
      · simp at h; omega
    have := ih (rl.check_rate_limit key t).2 key a (l0 ++ [t])
      (fun x hx => hbound x (by simp [hx])) hl0' hsub2 hadm2
    simpa [List.append_assoc] using this

theorem cleanupWindow_head_ge (c : Int) (q : List Int) (oldest : Int) (rest : List Int)
    (h : cleanupWindow c q = oldest :: rest) : ¬ oldest < c := by
  induction q with
  | nil => simp [cleanupWindow] at h
  | cons b bs ih =>
    rw [cleanupWindow, List.dropWhile_cons] at h
    simp only [decide_eq_true_eq] at h
    by_cases hb : b < c
    · rw [if_pos hb] at h
      exact ih h
    · rw [if_neg hb] at h
      obtain ⟨rfl, -⟩ := List.cons.injEq .. ▸ h
      exact hb

/-- C1: `check_rate_limit` first prunes each window by its cutoff (60 s for the
minute window, 3600 s for the hour window), returns `false` iff either pruned
window has reached its configured limit, and exactly on admission appends the
current timestamp to both windows (a denied call appends nothing); windows of
other credentials are untouched by the call.  Moreover, after a number of
admitted requests at least the per-minute limit, all within one 60-second
interval, the next check within the same interval returns `false`. -/
theorem check_rate_limit_admission_spec
    (rl : RateLimiter) (key : String) (now : Int)
    (rl0 : RateLimiter) (key0 : String) (ts : List Int) (t a : Int)
    (hlen : rl0.requests_per_minute ≤ ts.length)
    (hbound : ∀ x ∈ t :: ts, a ≤ x ∧ x ≤ a + 60)
    (hadm : (runChecks rl0 key0 ts).1 = List.replicate ts.length true) :
    ((rl.check_rate_limit key now).1 = true ↔
      (cleanupWindow (now - 60) (rl.minute_requests key)).length < rl.requests_per_minute ∧
      (cleanupWindow (now - 3600) (rl.hour_requests key)).length < rl.requests_per_hour) ∧
    (rl.check_rate_limit key now).2.minute_requests key =
      cleanupWindow (now - 60) (rl.minute_requests key) ++
        (if (rl.check_rate_limit key now).1 then [now] else []) ∧
    (rl.check_rate_limit key now).2.hour_requests key =
      cleanupWindow (now - 3600) (rl.hour_requests key) ++
        (if (rl.check_rate_limit key now).1 then [now] else []) ∧
    (∀ k, k ≠ key →
      (rl.check_rate_limit key now).2.minute_requests k = rl.minute_requests k ∧
      (rl.check_rate_limit key now).2.hour_requests k = rl.hour_requests k) ∧
    ((runChecks rl0 key0 ts).2.check_rate_limit key0 t).1 = false := by
  refine ⟨check_rate_limit_allowed_iff rl key now,
    check_rate_limit_minute_eq rl key now,
    check_rate_limit_hour_eq rl key now,
    fun k hk => check_rate_limit_other_keys rl key now k hk, ?_⟩
  have hsub : ts.Sublist ((runChecks rl0 key0 ts).2.minute_requests key0) := by
    have := runChecks_minute_sublist ts rl0 key0 a []
      (fun x hx => hbound x (List.mem_cons_of_mem _ hx)) (by simp)
      (List.nil_sublist _) hadm
    simpa using this
  have ht := hbound t (by simp)
  have hsub2 :
      ts.Sublist (cleanupWindow (t - 60) ((runChecks rl0 key0 ts).2.minute_requests key0)) := by
    refine sublist_cleanupWindow _ hsub (fun x hx => ?_)
    have := (hbound x (List.mem_cons_of_mem _ hx)).1
    omega
  apply check_rate_limit_denied_of_minute_full
  rw [(runChecks_limits ts rl0 key0).1]
  exact hlen.trans hsub2.length_le

/-- Concrete run discharging the hypotheses of `check_rate_limit_admission_spec`:
ten admitted requests at time 0 with default limits, then a denied check at 30 s. -/
theorem check_rate_limit_admission_spec_witness :
    ((runChecks (RateLimiter.init 10 60) "alice"
        [0, 0, 0, 0, 0, 0, 0, 0, 0, 0]).2.check_rate_limit "alice" 30).1 = false :=
  (check_rate_limit_admission_spec (RateLimiter.init 10 60) "alice" 30
    (RateLimiter.init 10 60) "alice" [0, 0, 0, 0, 0, 0, 0, 0, 0, 0] 30 0
    (by decide) (by decide) (by decide)).2.2.2.2

/-- C4 (amended): `get_retry_after` returns 0 when neither pruned window is at
capacity.  When the pruned minute window is at capacity it returns
`60 - (now - oldest_minute) + 1` — the seconds until the oldest minute
timestamp exits its window, plus 1 — a positive value, regardless of the hour
window.  Only when the minute window is below capacity and the hour window is
at capacity does it return the hour wait `3600 - (now - oldest_hour) + 1`.
When both windows are at capacity it therefore reports the minute wait, not
necessarily the longer of the two waits. -/
theorem get_retry_after_spec (rl : RateLimiter) (key : String) (now : Int) :
    ((cleanupWindow (now - 60) (rl.minute_requests key)).length < rl.requests_per_minute →
      (cleanupWindow (now - 3600) (rl.hour_requests key)).length < rl.requests_per_hour →
      (rl.get_retry_after key now).1 = some 0) ∧
    (∀ oldest rest,
      rl.requests_per_minute ≤ (cleanupWindow (now - 60) (rl.minute_requests key)).length →
      cleanupWindow (now - 60) (rl.minute_requests key) = oldest :: rest →
      (rl.get_retry_after key now).1 = some (60 - (now - oldest) + 1) ∧
        0 < 60 - (now - oldest) + 1) ∧
    (∀ oldest rest,
      (cleanupWindow (now - 60) (rl.minute_requests key)).length < rl.requests_per_minute →
      rl.requests_per_hour ≤ (cleanupWindow (now - 3600) (rl.hour_requests key)).length →
      cleanupWindow (now - 3600) (rl.hour_requests key) = oldest :: rest →
      (rl.get_retry_after key now).1 = some (3600 - (now - oldest) + 1) ∧
        0 < 3600 - (now - oldest) + 1) := by
  refine ⟨?_, ?_, ?_⟩
  · intro hm hh
    have h1 : ¬ rl.requests_per_minute ≤
        (cleanupWindow (now - 60) (rl.minute_requests key)).length := by omega
    have h2 : ¬ rl.requests_per_hour ≤
        (cleanupWindow (now - 3600) (rl.hour_requests key)).length := by omega
    simp [RateLimiter.get_retry_after, RateLimiter.cleanup_old_requests, updateKey_same, h1, h2]
  · intro oldest rest h1 heq
    have hge := cleanupWindow_head_ge _ _ _ _ heq
    have h1' : rl.requests_per_minute ≤ rest.length + 1 := by
      rw [heq] at h1
      simpa using h1
    constructor
    · simp [RateLimiter.get_retry_after, RateLimiter.cleanup_old_requests, updateKey_same,
        h1', heq]
    · omega
  · intro oldest rest hm h2 heq
    have hge := cleanupWindow_head_ge _ _ _ _ heq
    have h1 : ¬ rl.requests_per_minute ≤
        (cleanupWindow (now - 60) (rl.minute_requests key)).length := by omega
    have h2' : rl.requests_per_hour ≤ rest.length + 1 := by
      rw [heq] at h2
      simpa using h2
    constructor
    · simp [RateLimiter.get_retry_after, RateLimiter.cleanup_old_requests, updateKey_same,
        h1, h2', heq]
    · omega

/-- Concrete instantiation of `get_retry_after_spec`: a limiter whose pruned
minute window for "carol" holds its full 2-request quota. -/
theorem get_retry_after_spec_witness :
    ((RateLimiter.mk 2 5 (fun _ => [100, 130]) (fun _ => [100, 130])).get_retry_after
        "carol" 150).1 = some 11 ∧ (0 : Int) < 11 :=
  (get_retry_after_spec
      (RateLimiter.mk 2 5 (fun _ => [100, 130]) (fun _ => [100, 130])) "carol" 150).2.1
    100 [130] (by decide) (by decide)

/-- Schedule reaching a state whose minute and hour windows are both at
capacity with very different exit times: six bursts of ten admitted requests,
one burst per minute. -/
def retryProbeTimes : List Int :=
  List.replicate 10 (0 : Int) ++ List.replicate 10 (61 : Int) ++
    List.replicate 10 (122 : Int) ++ List.replicate 10 (183 : Int) ++
    List.replicate 10 (244 : Int) ++ List.replicate 10 (305 : Int)

/-- Limiter state (default limits 10/60) after running `retryProbeTimes`. -/
def retryProbeState : RateLimiter :=
  (runChecks (RateLimiter.init 10 60) "carol" retryProbeTimes).2

set_option maxRecDepth 100000 in
/-- C4 counterexample: in `retryProbeState` at time 310 both pruned windows
are at capacity (`10 ≤` minute length, `60 ≤` hour length).  The oldest hour
timestamp is 0, so leaving the hour window takes `3600 - (310 - 0) + 1 = 3291`
seconds, yet `get_retry_after` reports only the minute wait `56` — not the
longer of the two waits as the claim states. -/
theorem get_retry_after_counterexample :
    (retryProbeState.get_retry_after "carol" 310).1 = some 56 ∧
    10 ≤ (cleanupWindow (310 - 60) (retryProbeState.minute_requests "carol")).length ∧
    60 ≤ (cleanupWindow (310 - 3600) (retryProbeState.hour_requests "carol")).length ∧
    (cleanupWindow (310 - 3600) (retryProbeState.hour_requests "carol")).head? = some 0 ∧
    retryProbeState.requests_per_minute = 10 ∧
    retryProbeState.requests_per_hour = 60 ∧
    (56 : Int) < 3600 - (310 - 0) + 1 := by
  decide

/-! ## Job orchestration and webhooks (src/webhook_service.py)

A job record as kept in `self.jobs`.  `update_job_status` writes whatever
status string it is handed; timestamps are omitted (no claim refers to them).
The Boolean returned alongside the updated table records whether the call
dispatched a webhook notification, i.e. whether `trigger_webhook` found a job
with a `webhook_url` and spawned a `_send_webhook` thread. -/

structure Job where
  job_type : String
  status : String
  result : Option String
  error : Option String
  webhook_url : Option String
  webhook_secret : Option String
  webhook_delivered : Bool
  webhook_failed : Bool
  attempts : Nat
deriving DecidableEq

/-- `WebhookService.trigger_webhook`: returns whether a delivery thread is
spawned (the job exists and has a webhook URL). -/
def trigger_webhook (jobs : String → Option Job) (job_id : String) : Bool :=
  match jobs job_id with
  | none => false
  | some j => j.webhook_url.isSome

/-- `WebhookService.update_job_status`: `(returned bool, updated table,
whether a webhook dispatch was initiated)`. -/
def update_job_status (jobs : String → Option Job) (job_id status : String)
    (result error : Option String) : Bool × (String → Option Job) × Bool :=
  match jobs job_id with
  | none => (false, jobs, false)
  | some j =>
    let j1 := { j with status := status }
    let j2 := if result.isSome then { j1 with result := result } else j1
    let j3 := if error.isSome then { j2 with error := error } else j2
    let jobs2 := fun k => if k = job_id then some j3 else jobs k
    (true, jobs2,
      if status = "completed" ∨ status = "failed" then trigger_webhook jobs2 job_id else false)

/-- The worker of `WebhookService.process_job_async`: set the job to
`processing`, run the job function, then set `completed` with its result or
`failed` with the raised error.  Returns the final table and how many webhook
dispatches the run initiated. -/
def run_worker (jobs : String → Option Job) (job_id : String)
    (outcome : Except String String) : (String → Option Job) × Nat :=
  let step1 := update_job_status jobs job_id "processing" none none
  match outcome with
  | .ok r =>
    let step2 := update_job_status step1.2.1 job_id "completed" (some r) none
    (step2.2.1, (if step1.2.2 then 1 else 0) + (if step2.2.2 then 1 else 0))
  | .error e =>
    let step2 := update_job_status step1.2.1 job_id "failed" none (some e)
    (step2.2.1, (if step1.2.2 then 1 else 0) + (if step2.2.2 then 1 else 0))

/-- Status of a job id as visible by polling. -/
def job_status (jobs : String → Option Job) (job_id : String) : Option String :=
  (jobs job_id).map Job.status

/-! ### Job lifecycle theorems -/

/-- C10: updating a job id that is not in the table returns `False`, leaves
the table unchanged and initiates no webhook dispatch. -/
theorem update_job_status_unknown_id (jobs : String → Option Job) (job_id status : String)
    (result error : Option String) (h : jobs job_id = none) :
    update_job_status jobs job_id status result error = (false, jobs, false) := by
  simp [update_job_status, h]

/-- Concrete instantiation of `update_job_status_unknown_id` on an empty table. -/
theorem update_job_status_unknown_id_witness :
    update_job_status (fun _ => none) "missing" "completed" none none =
      (false, fun _ => none, false) :=
  update_job_status_unknown_id (fun _ => none) "missing" "completed" none none rfl

/-- C2 (amended): `update_job_status` enforces no transition guard — it
records whatever status it is handed for any existing job.  Under the worker
discipline of `process_job_async` (set `processing`, then exactly one of
`completed`/`failed`), a job that starts `pending` traverses exactly
`pending → processing → {completed | failed}`: monotone, never skipping
`processing`, with the terminal status determined by the job outcome. -/
theorem job_status_trace_spec
    (jobs : String → Option Job) (job_id : String) (outcome : Except String String)
    (j : Job) (hj : jobs job_id = some j) (hpending : j.status = "pending") :
    (∀ (tbl : String → Option Job) (id st : String) (r e : Option String) (j2 : Job),
      tbl id = some j2 →
      job_status (update_job_status tbl id st r e).2.1 id = some st) ∧
    job_status jobs job_id = some "pending" ∧
    job_status (update_job_status jobs job_id "processing" none none).2.1 job_id =
      some "processing" ∧
    job_status (run_worker jobs job_id outcome).1 job_id =
      some (match outcome with | .ok _ => "completed" | .error _ => "failed") := by
  have hguard : ∀ (tbl : String → Option Job) (id st : String) (r e : Option String) (j2 : Job),
      tbl id = some j2 →
      job_status (update_job_status tbl id st r e).2.1 id = some st := by
    intro tbl id st r e j2 h2
    rcases r with _ | r <;> rcases e with _ | e <;>
      simp [update_job_status, job_status, h2]
  have hstep1 : (update_job_status jobs job_id "processing" none none).2.1 job_id =
      some { j with status := "processing" } := by
    simp [update_job_status, hj]
  refine ⟨hguard, by simp [job_status, hj, hpending], ?_, ?_⟩
  · simp [job_status, hstep1]
  · rcases outcome with e | r
    · exact hguard _ job_id "failed" none (some e) _ hstep1
    · exact hguard _ job_id "completed" (some r) none _ hstep1

/-- A pending screenshot job with a webhook target, used to instantiate the
worker-trace theorem. -/
def pendingJob : Job :=
  ⟨"screenshot", "pending", none, none, some "https://cb.example/hook", some "s3", false, false, 0⟩

/-- One-entry job table holding `pendingJob` under id "j1". -/
def pendingJobs : String → Option Job :=
  fun k => if k = "j1" then some pendingJob else none

/-- Concrete instantiation of `job_status_trace_spec`: a successful worker run
takes the pending job "j1" to `completed`. -/
theorem job_status_trace_spec_witness :
    job_status (run_worker pendingJobs "j1" (Except.ok "shot.png")).1 "j1" = some "completed" :=
  (job_status_trace_spec pendingJobs "j1" (Except.ok "shot.png") pendingJob
    (by decide) (by decide)).2.2.2

/-- A job already in the terminal status "completed". -/
def doneJob : Job :=
  ⟨"screenshot", "completed", some "shot.png", none, none, none, false, false, 0⟩

/-- One-entry job table holding `doneJob` under id "j2". -/
def doneJobs : String → Option Job :=
  fun k => if k = "j2" then some doneJob else none

/-- C2 counterexample: calling `update_job_status` with status "pending" on a
job whose recorded status is already terminal ("completed") succeeds and
regresses the status — the code enforces no monotonicity, so a terminal status
can change again. -/
theorem job_status_regression_counterexample :
    (update_job_status doneJobs "j2" "pending" none none).1 = true ∧
    job_status doneJobs "j2" = some "completed" ∧
    job_status (update_job_status doneJobs "j2" "pending" none none).2.1 "j2" =
      some "pending" := by
  decide

/-- C3 (amended): every terminal-status update of an existing job initiates a
webhook dispatch exactly when the job carries a webhook URL — the first
terminal transition triggers it, and any later terminal-status update of the
same job triggers it again (there is no idempotency guard).  A single worker
run initiates exactly one dispatch for a job with a webhook URL (its
`processing` update dispatches nothing), and none for a job without one. -/
theorem trigger_webhook_spec
    (jobs : String → Option Job) (job_id st : String) (r e : Option String) (j : Job)
    (hj : jobs job_id = some j) (outcome : Except String String) :
    ((update_job_status jobs job_id st r e).2.2 =
      (decide (st = "completed" ∨ st = "failed") && j.webhook_url.isSome)) ∧
    (run_worker jobs job_id outcome).2 = (if j.webhook_url.isSome then 1 else 0) := by
  constructor
  · by_cases hst : st = "completed" ∨ st = "failed" <;>
      rcases r with _ | r <;> rcases e with _ | e <;>
        simp [update_job_status, trigger_webhook, hj, hst]
  · rcases outcome with e | r <;>
      simp [run_worker, update_job_status, trigger_webhook, hj]

/-- A processing job with a webhook URL. -/
def notifyJob : Job :=
  ⟨"screenshot", "processing", none, none, some "https://cb.example/h", none, false, false, 0⟩

/-- One-entry job table holding `notifyJob` under id "j3". -/
def notifyJobs : String → Option Job :=
  fun k => if k = "j3" then some notifyJob else none

/-- Concrete instantiation of `trigger_webhook_spec`: a failing worker run on
"j3" dispatches exactly one webhook. -/
theorem trigger_webhook_spec_witness :
    (run_worker notifyJobs "j3" (Except.error "timeout")).2 = 1 := by
  have h := (trigger_webhook_spec notifyJobs "j3" "completed" none none notifyJob
    (by decide) (Except.error "timeout")).2
  simpa using h

/-- C3 counterexample: a second "completed" update of the same job id
initiates a second webhook dispatch — re-triggering is not a no-op, so a
duplicate notification is sent. -/
theorem trigger_webhook_counterexample :
    (update_job_status notifyJobs "j3" "completed" none none).2.2 = true ∧
    (update_job_status
        (update_job_status notifyJobs "j3" "completed" none none).2.1
        "j3" "completed" none none).2.2 = true := by
  decide

/-! ### Webhook delivery retry (`WebhookService._send_webhook`)

Each attempt's outcome is an oracle: `ok s` is an HTTP response with status
code `s`, `err` a raised transport error. -/

inductive AttemptResult where
  | ok (status : Nat)
  | err
deriving DecidableEq

/-- The retry loop of `_send_webhook` over the listed attempt indices.
Returns the index of the first attempt whose response had HTTP status exactly
200 (the loop then returns) and the backoff sleeps performed, in order: a
sleep of `2 ** attempt` seconds happens only in the `except` handler — after
a transport error — and only when `attempt < max_retries - 1`. -/
def send_attempts (oracle : Nat → AttemptResult) (max_retries : Nat) :
    List Nat → Option Nat × List Nat
  | [] => (none, [])
  | i :: rest =>
    match oracle i with
    | .ok s =>
      if s = 200 then (some i, [])
      else send_attempts oracle max_retries rest
    | .err =>
      let r := send_attempts oracle max_retries rest
      (r.1, if i < max_retries - 1 then 2 ^ i :: r.2 else r.2)

/-- `WebhookService._send_webhook`: run attempts `0 .. max_retries-1`; on a
200 set `webhook_delivered`, otherwise set `webhook_failed` and
`attempts = max_retries`. -/
def send_webhook (oracle : Nat → AttemptResult) (job : Job) (max_retries : Nat) :
    Job × Option Nat × List Nat :=
  let r := send_attempts oracle max_retries (List.range max_retries)
  match r.1 with
  | some _ => ({ job with webhook_delivered := true }, r.1, r.2)
  | none => ({ job with webhook_failed := true, attempts := max_retries }, none, r.2)

theorem send_attempts_all_fail (oracle : Nat → AttemptResult) (maxR : Nat)
    (l : List Nat) (h : ∀ i ∈ l, oracle i ≠ AttemptResult.ok 200) :
    send_attempts oracle maxR l =
      (none,
        (l.filter (fun i => decide (oracle i = AttemptResult.err) && decide (i < maxR - 1))).map
          (fun i => 2 ^ i)) := by
  induction l with
  | nil => rfl
  | cons i rest ih =>
    have hi := h i (by simp)
    have hrest := ih (fun j hj => h j (List.mem_cons_of_mem _ hj))
    rcases ho : oracle i with s | _
    · have hs : ¬ s = 200 := by
        intro hs
        exact hi (by rw [ho, hs])
      simp [send_attempts, ho, hs, hrest, List.filter_cons]
    · by_cases hlt : i < maxR - 1 <;>
        simp [send_attempts, ho, hrest, List.filter_cons, hlt]

theorem send_attempts_sleep_mem (oracle : Nat → AttemptResult) (maxR : Nat)
    (l : List Nat) : ∀ x ∈ (send_attempts oracle maxR l).2,
      ∃ i ∈ l, x = 2 ^ i ∧ oracle i = AttemptResult.err := by
  induction l with
  | nil => simp [send_attempts]
  | cons i rest ih =>
    intro x hx
    rcases ho : oracle i with s | _
    · by_cases hs : s = 200
      · rw [send_attempts, ho] at hx
        simp [hs] at hx
      · rw [send_attempts, ho] at hx
        simp only [if_neg hs] at hx
        obtain ⟨j, hj, hxe⟩ := ih x hx
        exact ⟨j, List.mem_cons_of_mem _ hj, hxe⟩
    · rw [send_attempts, ho] at hx
      by_cases hlt : i < maxR - 1
      · simp only [if_pos hlt, List.mem_cons] at hx
        rcases hx with rfl | hx
        · exact ⟨i, by simp, rfl, ho⟩
        · obtain ⟨j, hj, hxe⟩ := ih x hx
          exact ⟨j, List.mem_cons_of_mem _ hj, hxe⟩
      · simp only [if_neg hlt] at hx
        obtain ⟨j, hj, hxe⟩ := ih x hx
        exact ⟨j, List.mem_cons_of_mem _ hj, hxe⟩

theorem send_attempts_sleeps_sorted (oracle : Nat → AttemptResult) (maxR : Nat)
    (l : List Nat) (hl : l.Pairwise (· < ·)) :
    List.Sorted (· ≤ ·) (send_attempts oracle maxR l).2 := by
  induction l with
  | nil => simp [send_attempts, List.Sorted]
  | cons i rest ih =>
    rw [List.pairwise_cons] at hl
    obtain ⟨hi, hrest⟩ := hl
    rcases ho : oracle i with s | _
    · by_cases hs : s = 200
      · rw [send_attempts, ho]
        simp [hs, List.Sorted]
      · rw [send_attempts, ho]
        simpa [hs] using ih hrest
    · rw [send_attempts, ho]
      by_cases hlt : i < maxR - 1
      · simp only [if_pos hlt]
        rw [List.sorted_cons]
        refine ⟨fun b hb => ?_, ih hrest⟩
        obtain ⟨j, hj, rfl, -⟩ := send_attempts_sleep_mem oracle maxR rest b hb
        exact Nat.pow_le_pow_right (by omega) (le_of_lt (hi j hj))
      · simpa [hlt] using ih hrest

theorem send_attempts_first_success (oracle : Nat → AttemptResult) (maxR : Nat)
    (l1 : List Nat) (i : Nat) (l2 : List Nat)
    (h1 : ∀ j ∈ l1, oracle j ≠ AttemptResult.ok 200)
    (hi : oracle i = AttemptResult.ok 200) :
    (send_attempts oracle maxR (l1 ++ i :: l2)).1 = some i := by
  induction l1 with
  | nil => simp [send_attempts, hi]
  | cons a l1 ih =>
    have ha := h1 a (by simp)
    have hrec := ih (fun j hj => h1 j (List.mem_cons_of_mem _ hj))
    rcases ho : oracle a with s | _
    · have hs : ¬ s = 200 := by
        intro hs
        exact ha (by rw [ho, hs])
      simpa [send_attempts, ho, hs] using hrec
    · simpa [send_attempts, ho] using hrec

theorem range_split_at (i maxR : Nat) (h : i < maxR) :
    List.range maxR =
      List.range i ++ i :: ((List.range (maxR - (i + 1))).map (fun x => (i + 1) + x)) := by
  have hsum : maxR = (i + 1) + (maxR - (i + 1)) := by omega
  calc List.range maxR
      = List.range ((i + 1) + (maxR - (i + 1))) := by rw [← hsum]
    _ = List.range (i + 1) ++ (List.range (maxR - (i + 1))).map (fun x => (i + 1) + x) :=
        List.range_add _ _
    _ = (List.range i ++ [i]) ++ (List.range (maxR - (i + 1))).map (fun x => (i + 1) + x) := by
        rw [List.range_succ]
    _ = List.range i ++ i :: ((List.range (maxR - (i + 1))).map (fun x => (i + 1) + x)) := by
        rw [List.append_assoc, List.singleton_append]

/-- C5 (amended): on any non-200 response or transport error the POST is
retried, up to `max_retries` total attempts; backoff sleeps of `2^attempt`
seconds (1 s, then 2 s, …) occur only after a transport error on a non-final
attempt — a non-200 HTTP response is retried with no sleep — and the sleep
sequence is non-decreasing.  A response with status exactly 200 (not any
2xx) on any attempt marks the job delivered and stops further attempts; if
no attempt yields a 200 the job is marked delivery-failed with
`attempts = max_retries` and no further automatic attempt occurs. -/
theorem send_webhook_retry_spec (oracle : Nat → AttemptResult) (job : Job) (maxR : Nat) :
    ((∀ i, i < maxR → oracle i ≠ AttemptResult.ok 200) →
      send_attempts oracle maxR (List.range maxR) =
        (none,
          ((List.range maxR).filter
            (fun i => decide (oracle i = AttemptResult.err) && decide (i < maxR - 1))).map
            (fun i => 2 ^ i)) ∧
      (send_webhook oracle job maxR).1.webhook_failed = true ∧
      (send_webhook oracle job maxR).1.attempts = maxR ∧
      (send_webhook oracle job maxR).1.webhook_delivered = job.webhook_delivered) ∧
    (∀ i, i < maxR → oracle i = AttemptResult.ok 200 →
      (∀ j, j < i → oracle j ≠ AttemptResult.ok 200) →
      (send_attempts oracle maxR (List.range maxR)).1 = some i ∧
      (send_webhook oracle job maxR).1.webhook_delivered = true ∧
      (send_webhook oracle job maxR).1.webhook_failed = job.webhook_failed) ∧
    List.Sorted (· ≤ ·) (send_attempts oracle maxR (List.range maxR)).2 := by
  refine ⟨?_, ?_, ?_⟩
  · intro hall
    have h := send_attempts_all_fail oracle maxR (List.range maxR)
      (fun i hi => hall i (List.mem_range.mp hi))
    refine ⟨h, ?_, ?_, ?_⟩ <;> simp [send_webhook, h]
  · intro i hi hok hfirst
    have hsplit := range_split_at i maxR hi
    have h1 : ∀ j ∈ List.range i, oracle j ≠ AttemptResult.ok 200 :=
      fun j hj => hfirst j (List.mem_range.mp hj)
    have h : (send_attempts oracle maxR (List.range maxR)).1 = some i := by
      rw [hsplit]
      exact send_attempts_first_success oracle maxR (List.range i) i _ h1 hok
    refine ⟨h, ?_, ?_⟩ <;>
      · rcases hsa : send_attempts oracle maxR (List.range maxR) with ⟨d, sl⟩
        rw [hsa] at h
        simp only at h
        simp [send_webhook, hsa, h]
  · exact send_attempts_sleeps_sorted oracle maxR (List.range maxR) (List.pairwise_lt_range maxR)

/-- A delivery-pending job record used in the delivery theorems. -/
def deliveryJob : Job :=
  ⟨"screenshot", "completed", some "shot.png", none, some "https://cb.example/w", none,
    false, false, 0⟩

/-- Concrete instantiation of `send_webhook_retry_spec`: a target erring on
attempt 0 and returning 200 on attempt 1 leads to a delivered job, with a
single 1-second backoff sleep. -/
theorem send_webhook_retry_spec_witness :
    (send_attempts (fun i => if i = 1 then AttemptResult.ok 200 else AttemptResult.err) 3
        (List.range 3)).1 = some 1 ∧
    (send_webhook (fun i => if i = 1 then AttemptResult.ok 200 else AttemptResult.err)
        deliveryJob 3).1.webhook_delivered = true := by
  have h := (send_webhook_retry_spec
    (fun i => if i = 1 then AttemptResult.ok 200 else AttemptResult.err) deliveryJob 3).2.1
    1 (by decide) (by decide) (by decide)
  exact ⟨h.1, h.2.1⟩

/-- C5 counterexample: a webhook target that always answers HTTP 204 — a 2xx
success — is never treated as delivered: all 3 attempts are consumed, no 200
is seen, and the job is marked delivery-failed with `attempts = 3`. -/
theorem send_webhook_counterexample :
    ((200 : Nat) ≤ 204 ∧ (204 : Nat) < 300) ∧
    (send_attempts (fun _ => AttemptResult.ok 204) 3 (List.range 3)).1 = none ∧
    (send_webhook (fun _ => AttemptResult.ok 204) deliveryJob 3).1.webhook_delivered = false ∧
    (send_webhook (fun _ => AttemptResult.ok 204) deliveryJob 3).1.webhook_failed = true ∧
    (send_webhook (fun _ => AttemptResult.ok 204) deliveryJob 3).1.attempts = 3 := by
  decide

/-! ## Cache fingerprint (src/cache_service.py `generate_cache_key`,
extended in src/app.py `screenshot`)

Python renders the f-string fields: integers in decimal, booleans as
`True`/`False`, `None` as the literal string `None`.  We first establish that
decimal rendering (`Nat.repr`) is injective. -/

/-- Decimal digit list of a natural number (most significant first). -/
def decDigits (n : Nat) : List Char :=
  if n < 10 then [Nat.digitChar n]
  else decDigits (n / 10) ++ [Nat.digitChar (n % 10)]
termination_by n
decreasing_by omega

theorem toDigitsCore_eq_decDigits :
    ∀ (fuel n : Nat) (ds : List Char), n < fuel →
      Nat.toDigitsCore 10 fuel n ds = decDigits n ++ ds := by
  intro fuel
  induction fuel with
  | zero => omega
  | succ f ih =>
    intro n ds hn
    show (if n / 10 = 0 then Nat.digitChar (n % 10) :: ds
      else Nat.toDigitsCore 10 f (n / 10) (Nat.digitChar (n % 10) :: ds)) = decDigits n ++ ds
    by_cases h0 : n / 10 = 0
    · have hlt : n < 10 := by omega
      rw [if_pos h0, decDigits, if_pos hlt, Nat.mod_eq_of_lt hlt]
      rfl
    · have h10 : 10 ≤ n := by omega
      have hdivlt : n / 10 < f := by
        have h1 : n / 10 < n := Nat.div_lt_self (by omega) (by omega)
        omega
      rw [if_neg h0, ih (n / 10) (Nat.digitChar (n % 10) :: ds) hdivlt]
      conv_rhs => rw [decDigits]
      rw [if_neg (by omega : ¬ n < 10), List.append_assoc, List.singleton_append]

/-- Value of a decimal digit character. -/
def charDigitVal (c : Char) : Nat := c.toNat - 48

theorem charDigitVal_digitChar : ∀ d : Nat, d < 10 → charDigitVal (Nat.digitChar d) = d := by
  decide

theorem decDigits_foldl (n : Nat) :
    ∀ a : Nat, (decDigits n).foldl (fun acc c => 10 * acc + charDigitVal c) a =
      a * 10 ^ (decDigits n).length + n := by
  induction n using Nat.strong_induction_on with
  | _ n ih =>
    intro a
    by_cases h : n < 10
    · rw [decDigits, if_pos h]
      simp [charDigitVal_digitChar n h]
      omega
    · rw [decDigits, if_neg h]
      have hdiv : n / 10 < n := Nat.div_lt_self (by omega) (by omega)
      rw [List.foldl_append, ih (n / 10) hdiv a]
      simp only [List.foldl, List.length_append, List.length_singleton]
      rw [charDigitVal_digitChar (n % 10) (Nat.mod_lt _ (by omega))]
      have hmod : 10 * (n / 10) + n % 10 = n := Nat.div_add_mod n 10
      have hpow : 10 ^ ((decDigits (n / 10)).length + 1) =
          10 ^ (decDigits (n / 10)).length * 10 := pow_succ 10 _
      rw [hpow]
      calc 10 * (a * 10 ^ (decDigits (n / 10)).length + n / 10) + n % 10
          = a * (10 ^ (decDigits (n / 10)).length * 10) + (10 * (n / 10) + n % 10) := by ring
        _ = a * (10 ^ (decDigits (n / 10)).length * 10) + n := by rw [hmod]

theorem decDigits_injective : Function.Injective decDigits := by
  intro m n h
  have hm := decDigits_foldl m 0
  have hn := decDigits_foldl n 0
  rw [h] at hm
  simp only [Nat.zero_mul, Nat.zero_add] at hm hn
  omega

theorem Nat_repr_eq_decDigits (n : Nat) : Nat.repr n = (decDigits n).asString := by
  show (Nat.toDigitsCore 10 (n + 1) n []).asString = (decDigits n).asString
  rw [toDigitsCore_eq_decDigits (n + 1) n [] (Nat.lt_succ_self n), List.append_nil]

theorem Nat_repr_injective : Function.Injective Nat.repr := by
  intro m n h
  rw [Nat_repr_eq_decDigits, Nat_repr_eq_decDigits] at h
  exact decDigits_injective (congrArg String.data h)

/-! ### String cancellation -/

theorem str_append_left_cancel (A x y : String) (h : A ++ x = A ++ y) : x = y := by
  have hd := congrArg String.data h
  simp only [String.data_append] at hd
  have h1 := List.append_cancel_left hd
  cases x
  cases y
  exact congrArg String.mk h1

theorem str_append_right_cancel (B x y : String) (h : x ++ B = y ++ B) : x = y := by
  have hd := congrArg String.data h
  simp only [String.data_append] at hd
  have h1 := List.append_cancel_right hd
  cases x
  cases y
  exact congrArg String.mk h1

/-- The pipe-joined f-string `f"{f1}|{f2}|...|{fn}"`. -/
def joinPipe : List String → String
  | [] => ""
  | [s] => s
  | s :: rest => s ++ "|" ++ joinPipe rest

theorem joinPipe_cons (s : String) (l : List String) (hl : l ≠ []) :
    joinPipe (s :: l) = s ++ "|" ++ joinPipe l := by
  cases l with
  | nil => exact absurd rfl hl
  | cons a l => rfl

/-- Two pipe-joins of field lists that agree everywhere except at one field
position (where the rendered values differ) are different strings. -/
theorem joinPipe_ne_of_single_diff (a : List String) (x y : String) (c : List String)
    (h : x ≠ y) : joinPipe (a ++ x :: c) ≠ joinPipe (a ++ y :: c) := by
  induction a with
  | nil =>
    cases c with
    | nil => exact h
    | cons c0 cs =>
      intro he
      rw [List.nil_append, List.nil_append, joinPipe_cons x (c0 :: cs) (by simp),
        joinPipe_cons y (c0 :: cs) (by simp)] at he
      exact h (str_append_right_cancel _ _ _ (str_append_right_cancel _ _ _ he))
  | cons s a ih =>
    intro he
    rw [List.cons_append, List.cons_append, joinPipe_cons s (a ++ x :: c) (by simp),
      joinPipe_cons s (a ++ y :: c) (by simp)] at he
    have h2 : (s ++ "|") ++ joinPipe (a ++ x :: c) = (s ++ "|") ++ joinPipe (a ++ y :: c) := he
    exact ih (str_append_left_cancel _ _ _ h2)

/-! ### Request parameters and the fingerprint -/

/-- The capture-affecting request parameters of `GET/POST /screenshot` as
extracted in `src/app.py` (optional string parameters default to `None`). -/
structure ShotParams where
  url : String
  width : Nat
  height : Nat
  fullpage : Bool
  image_format : String
  quality : Nat
  delay : Nat
  selector : Option String
  device : Option String
  user_agent : Option String
  dark_mode : Bool
  wait_for_selector : Option String
  block_ads : Bool
  scroll_page : Bool
  media_type : Option String
  timezone : Option String
deriving DecidableEq

/-- f-string rendering of an `int`. -/
def natStr (n : Nat) : String := Nat.repr n

/-- f-string rendering of a `bool`. -/
def pyBoolStr (b : Bool) : String := if b then "True" else "False"

/-- f-string rendering of an optional string: `None` renders as the literal
string `"None"`. -/
def pyOptStr : Option String → String
  | none => "None"
  | some s => s

theorem pyBoolStr_injective : Function.Injective pyBoolStr := by
  decide

/-- `CacheService.generate_cache_key`'s pre-hash string
`f"{url}|{width}|{height}|{fullpage}|{image_format}|{quality}|{delay}"`. -/
def key_string (p : ShotParams) : String :=
  joinPipe [p.url, natStr p.width, natStr p.height, pyBoolStr p.fullpage, p.image_format,
    natStr p.quality, natStr p.delay]

/-- The advanced-parameter bundle of `src/app.py`:
`f"{selector}|{device}|{user_agent}|{dark_mode}|{wait_for_selector}|{block_ads}|{scroll_page}|{media_type}|{timezone}"`. -/
def cache_params_string (p : ShotParams) : String :=
  joinPipe [pyOptStr p.selector, pyOptStr p.device, pyOptStr p.user_agent,
    pyBoolStr p.dark_mode, pyOptStr p.wait_for_selector, pyBoolStr p.block_ads,
    pyBoolStr p.scroll_page, pyOptStr p.media_type, pyOptStr p.timezone]

/-- The pre-hash string of the extended key:
`f"{cache_key}|{cache_params}"` with `cache_key = sha256(key_string)`. -/
def extended_key_string (sha : String → String) (p : ShotParams) : String :=
  sha (key_string p) ++ "|" ++ cache_params_string p

/-- The final cache fingerprint `sha256(f"{cache_key}|{cache_params}")`,
parametric in the hash function. -/
def cache_fingerprint (sha : String → String) (p : ShotParams) : String :=
  sha (extended_key_string sha p)

theorem fingerprint_ne_of_key_ne (sha : String → String) (hsha : Function.Injective sha)
    (p q : ShotParams) (h : key_string p ≠ key_string q)
    (hcp : cache_params_string p = cache_params_string q) :
    cache_fingerprint sha p ≠ cache_fingerprint sha q := by
  intro he
  apply h
  have hext := hsha he
  rw [extended_key_string, extended_key_string, hcp] at hext
  exact hsha (str_append_right_cancel _ _ _ (str_append_right_cancel _ _ _ hext))

theorem fingerprint_ne_of_params_ne (sha : String → String) (hsha : Function.Injective sha)
    (p q : ShotParams) (hks : key_string p = key_string q)
    (h : cache_params_string p ≠ cache_params_string q) :
    cache_fingerprint sha p ≠ cache_fingerprint sha q := by
  intro he
  apply h
  have hext := hsha he
  rw [extended_key_string, extended_key_string, hks] at hext
  exact str_append_left_cancel _ _ _ hext

/-- C6 (amended): the fingerprint is a deterministic function of the
parameter record, and for every pair of parameter records differing in a
single capture-affecting field the pre-hash key strings differ — outright
for the integer, boolean and mandatory string fields, and for the optional
string fields (selector, device, user agent, wait-selector, media type,
timezone) whenever the rendered values differ (an absent optional field
renders as the literal string "None" and only collides with that exact
string).  With a collision-free hash the fingerprints then differ as well. -/
theorem cache_fingerprint_spec (sha : String → String) (hsha : Function.Injective sha) :
    (∀ p q : ShotParams, p = q → cache_fingerprint sha p = cache_fingerprint sha q) ∧
    (∀ (p : ShotParams) (v : String), v ≠ p.url →
      key_string { p with url := v } ≠ key_string p ∧
      cache_fingerprint sha { p with url := v } ≠ cache_fingerprint sha p) ∧
    (∀ (p : ShotParams) (v : Nat), v ≠ p.width →
      key_string { p with width := v } ≠ key_string p ∧
      cache_fingerprint sha { p with width := v } ≠ cache_fingerprint sha p) ∧
    (∀ (p : ShotParams) (v : Nat), v ≠ p.height →
      key_string { p with height := v } ≠ key_string p ∧
      cache_fingerprint sha { p with height := v } ≠ cache_fingerprint sha p) ∧
    (∀ (p : ShotParams) (v : Bool), v ≠ p.fullpage →
      key_string { p with fullpage := v } ≠ key_string p ∧
      cache_fingerprint sha { p with fullpage := v } ≠ cache_fingerprint sha p) ∧
    (∀ (p : ShotParams) (v : String), v ≠ p.image_format →
      key_string { p with image_format := v } ≠ key_string p ∧
      cache_fingerprint sha { p with image_format := v } ≠ cache_fingerprint sha p) ∧
    (∀ (p : ShotParams) (v : Nat), v ≠ p.quality →
      key_string { p with quality := v } ≠ key_string p ∧
      cache_fingerprint sha { p with quality := v } ≠ cache_fingerprint sha p) ∧
    (∀ (p : ShotParams) (v : Nat), v ≠ p.delay →
      key_string { p with delay := v } ≠ key_string p ∧
      cache_fingerprint sha { p with delay := v } ≠ cache_fingerprint sha p) ∧
    (∀ (p : ShotParams) (v : Option String), pyOptStr v ≠ pyOptStr p.selector →
      cache_params_string { p with selector := v } ≠ cache_params_string p ∧
      cache_fingerprint sha { p with selector := v } ≠ cache_fingerprint sha p) ∧
    (∀ (p : ShotParams) (v : Option String), pyOptStr v ≠ pyOptStr p.device →
      cache_params_string { p with device := v } ≠ cache_params_string p ∧
      cache_fingerprint sha { p with device := v } ≠ cache_fingerprint sha p) ∧
    (∀ (p : ShotParams) (v : Option String), pyOptStr v ≠ pyOptStr p.user_agent →
      cache_params_string { p with user_agent := v } ≠ cache_params_string p ∧
      cache_fingerprint sha { p with user_agent := v } ≠ cache_fingerprint sha p) ∧
    (∀ (p : ShotParams) (v : Bool), v ≠ p.dark_mode →
      cache_params_string { p with dark_mode := v } ≠ cache_params_string p ∧
      cache_fingerprint sha { p with dark_mode := v } ≠ cache_fingerprint sha p) ∧
    (∀ (p : ShotParams) (v : Option String), pyOptStr v ≠ pyOptStr p.wait_for_selector →
      cache_params_string { p with wait_for_selector := v } ≠ cache_params_string p ∧
      cache_fingerprint sha { p with wait_for_selector := v } ≠ cache_fingerprint sha p) ∧
    (∀ (p : ShotParams) (v : Bool), v ≠ p.block_ads →
      cache_params_string { p with block_ads := v } ≠ cache_params_string p ∧
      cache_fingerprint sha { p with block_ads := v } ≠ cache_fingerprint sha p) ∧
    (∀ (p : ShotParams) (v : Bool), v ≠ p.scroll_page →
      cache_params_string { p with scroll_page := v } ≠ cache_params_string p ∧
      cache_fingerprint sha { p with scroll_page := v } ≠ cache_fingerprint sha p) ∧
    (∀ (p : ShotParams) (v : Option String), pyOptStr v ≠ pyOptStr p.media_type →
      cache_params_string { p with media_type := v } ≠ cache_params_string p ∧
      cache_fingerprint sha { p with media_type := v } ≠ cache_fingerprint sha p) ∧
    (∀ (p : ShotParams) (v : Option String), pyOptStr v ≠ pyOptStr p.timezone →
      cache_params_string { p with timezone := v } ≠ cache_params_string p ∧
      cache_fingerprint sha { p with timezone := v } ≠ cache_fingerprint sha p) := by
  refine ⟨?_, ?_, ?_, ?_, ?_, ?_, ?_, ?_, ?_, ?_, ?_, ?_, ?_, ?_, ?_, ?_, ?_⟩
  · intro p q h
    rw [h]
  · intro p v hv
    have hks : key_string { p with url := v } ≠ key_string p :=
      joinPipe_ne_of_single_diff [] v p.url
        [natStr p.width, natStr p.height, pyBoolStr p.fullpage, p.image_format,
          natStr p.quality, natStr p.delay] hv
    exact ⟨hks, fingerprint_ne_of_key_ne sha hsha _ _ hks rfl⟩
  · intro p v hv
    have hks : key_string { p with width := v } ≠ key_string p :=
      joinPipe_ne_of_single_diff [p.url] (natStr v) (natStr p.width)
        [natStr p.height, pyBoolStr p.fullpage, p.image_format,
          natStr p.quality, natStr p.delay] (fun he => hv (Nat_repr_injective he))
    exact ⟨hks, fingerprint_ne_of_key_ne sha hsha _ _ hks rfl⟩
  · intro p v hv
    have hks : key_string { p with height := v } ≠ key_string p :=
      joinPipe_ne_of_single_diff [p.url, natStr p.width] (natStr v) (natStr p.height)
        [pyBoolStr p.fullpage, p.image_format, natStr p.quality, natStr p.delay]
        (fun he => hv (Nat_repr_injective he))
    exact ⟨hks, fingerprint_ne_of_key_ne sha hsha _ _ hks rfl⟩
  · intro p v hv
    have hks : key_string { p with fullpage := v } ≠ key_string p :=
      joinPipe_ne_of_single_diff [p.url, natStr p.width, natStr p.height]
        (pyBoolStr v) (pyBoolStr p.fullpage)
        [p.image_format, natStr p.quality, natStr p.delay]
        (fun he => hv (pyBoolStr_injective he))
    exact ⟨hks, fingerprint_ne_of_key_ne sha hsha _ _ hks rfl⟩
  · intro p v hv
    have hks : key_string { p with image_format := v } ≠ key_string p :=
      joinPipe_ne_of_single_diff [p.url, natStr p.width, natStr p.height, pyBoolStr p.fullpage]
        v p.image_format [natStr p.quality, natStr p.delay] hv
    exact ⟨hks, fingerprint_ne_of_key_ne sha hsha _ _ hks rfl⟩
  · intro p v hv
    have hks : key_string { p with quality := v } ≠ key_string p :=
      joinPipe_ne_of_single_diff
        [p.url, natStr p.width, natStr p.height, pyBoolStr p.fullpage, p.image_format]
        (natStr v) (natStr p.quality) [natStr p.delay]
        (fun he => hv (Nat_repr_injective he))
    exact ⟨hks, fingerprint_ne_of_key_ne sha hsha _ _ hks rfl⟩
  · intro p v hv
    have hks : key_string { p with delay := v } ≠ key_string p :=
      joinPipe_ne_of_single_diff
        [p.url, natStr p.width, natStr p.height, pyBoolStr p.fullpage, p.image_format,
          natStr p.quality] (natStr v) (natStr p.delay) []
        (fun he => hv (Nat_repr_injective he))
    exact ⟨hks, fingerprint_ne_of_key_ne sha hsha _ _ hks rfl⟩
  · intro p v hv
    have hcp : cache_params_string { p with selector := v } ≠ cache_params_string p :=
      joinPipe_ne_of_single_diff [] (pyOptStr v) (pyOptStr p.selector)
        [pyOptStr p.device, pyOptStr p.user_agent, pyBoolStr p.dark_mode,
          pyOptStr p.wait_for_selector, pyBoolStr p.block_ads, pyBoolStr p.scroll_page,
          pyOptStr p.media_type, pyOptStr p.timezone] hv
    exact ⟨hcp, fingerprint_ne_of_params_ne sha hsha _ _ rfl hcp⟩
  · intro p v hv
    have hcp : cache_params_string { p with device := v } ≠ cache_params_string p :=
      joinPipe_ne_of_single_diff [pyOptStr p.selector] (pyOptStr v) (pyOptStr p.device)
        [pyOptStr p.user_agent, pyBoolStr p.dark_mode, pyOptStr p.wait_for_selector,
          pyBoolStr p.block_ads, pyBoolStr p.scroll_page, pyOptStr p.media_type,
          pyOptStr p.timezone] hv
    exact ⟨hcp, fingerprint_ne_of_params_ne sha hsha _ _ rfl hcp⟩
  · intro p v hv
    have hcp : cache_params_string { p with user_agent := v } ≠ cache_params_string p :=
      joinPipe_ne_of_single_diff [pyOptStr p.selector, pyOptStr p.device]
        (pyOptStr v) (pyOptStr p.user_agent)
        [pyBoolStr p.dark_mode, pyOptStr p.wait_for_selector, pyBoolStr p.block_ads,
          pyBoolStr p.scroll_page, pyOptStr p.media_type, pyOptStr p.timezone] hv
    exact ⟨hcp, fingerprint_ne_of_params_ne sha hsha _ _ rfl hcp⟩
  · intro p v hv
    have hcp : cache_params_string { p with dark_mode := v } ≠ cache_params_string p :=
      joinPipe_ne_of_single_diff
        [pyOptStr p.selector, pyOptStr p.device, pyOptStr p.user_agent]
        (pyBoolStr v) (pyBoolStr p.dark_mode)
        [pyOptStr p.wait_for_selector, pyBoolStr p.block_ads, pyBoolStr p.scroll_page,
          pyOptStr p.media_type, pyOptStr p.timezone]
        (fun he => hv (pyBoolStr_injective he))
    exact ⟨hcp, fingerprint_ne_of_params_ne sha hsha _ _ rfl hcp⟩
  · intro p v hv
    have hcp : cache_params_string { p with wait_for_selector := v } ≠ cache_params_string p :=
      joinPipe_ne_of_single_diff
        [pyOptStr p.selector, pyOptStr p.device, pyOptStr p.user_agent,
          pyBoolStr p.dark_mode] (pyOptStr v) (pyOptStr p.wait_for_selector)
        [pyBoolStr p.block_ads, pyBoolStr p.scroll_page, pyOptStr p.media_type,
          pyOptStr p.timezone] hv
    exact ⟨hcp, fingerprint_ne_of_params_ne sha hsha _ _ rfl hcp⟩
  · intro p v hv
    have hcp : cache_params_string { p with block_ads := v } ≠ cache_params_string p :=
      joinPipe_ne_of_single_diff
        [pyOptStr p.selector, pyOptStr p.device, pyOptStr p.user_agent,
          pyBoolStr p.dark_mode, pyOptStr p.wait_for_selector]
        (pyBoolStr v) (pyBoolStr p.block_ads)
        [pyBoolStr p.scroll_page, pyOptStr p.media_type, pyOptStr p.timezone]
        (fun he => hv (pyBoolStr_injective he))
    exact ⟨hcp, fingerprint_ne_of_params_ne sha hsha _ _ rfl hcp⟩
  · intro p v hv
    have hcp : cache_params_string { p with scroll_page := v } ≠ cache_params_string p :=
      joinPipe_ne_of_single_diff
        [pyOptStr p.selector, pyOptStr p.device, pyOptStr p.user_agent,
          pyBoolStr p.dark_mode, pyOptStr p.wait_for_selector, pyBoolStr p.block_ads]
        (pyBoolStr v) (pyBoolStr p.scroll_page)
        [pyOptStr p.media_type, pyOptStr p.timezone]
        (fun he => hv (pyBoolStr_injective he))
    exact ⟨hcp, fingerprint_ne_of_params_ne sha hsha _ _ rfl hcp⟩
  · intro p v hv
    have hcp : cache_params_string { p with media_type := v } ≠ cache_params_string p :=
      joinPipe_ne_of_single_diff
        [pyOptStr p.selector, pyOptStr p.device, pyOptStr p.user_agent,
          pyBoolStr p.dark_mode, pyOptStr p.wait_for_selector, pyBoolStr p.block_ads,
          pyBoolStr p.scroll_page] (pyOptStr v) (pyOptStr p.media_type)
        [pyOptStr p.timezone] hv
    exact ⟨hcp, fingerprint_ne_of_params_ne sha hsha _ _ rfl hcp⟩
  · intro p v hv
    have hcp : cache_params_string { p with timezone := v } ≠ cache_params_string p :=
      joinPipe_ne_of_single_diff
        [pyOptStr p.selector, pyOptStr p.device, pyOptStr p.user_agent,
          pyBoolStr p.dark_mode, pyOptStr p.wait_for_selector, pyBoolStr p.block_ads,
          pyBoolStr p.scroll_page, pyOptStr p.media_type]
        (pyOptStr v) (pyOptStr p.timezone) [] hv
    exact ⟨hcp, fingerprint_ne_of_params_ne sha hsha _ _ rfl hcp⟩

/-- A representative parameter record (the documented defaults of
`/screenshot`, all optional parameters absent). -/
def probeParams : ShotParams :=
  ⟨"https://example.com", 1920, 1080, false, "png", 80, 0, none, none, none,
    false, none, false, false, none, none⟩

/-- Concrete instantiation of `cache_fingerprint_spec` (with the identity as
an injective stand-in hash): changing only the url changes the pre-hash key
string and the fingerprint. -/
theorem cache_fingerprint_spec_witness :
    key_string { probeParams with url := "https://other.example" } ≠ key_string probeParams ∧
    cache_fingerprint (fun s => s) { probeParams with url := "https://other.example" } ≠
      cache_fingerprint (fun s => s) probeParams :=
  (cache_fingerprint_spec (fun s => s) (fun _ _ h => h)).2.1 probeParams
    "https://other.example" (by decide)

/-- C6 counterexample: the parameter records with `selector` absent and with
`selector` equal to the literal string "None" differ in a single
capture-affecting field, yet both pre-hash key strings coincide (Python
renders `None` as "None"), so the fingerprints are identical for any hash. -/
theorem cache_fingerprint_counterexample :
    probeParams ≠ { probeParams with selector := some "None" } ∧
    key_string probeParams = key_string { probeParams with selector := some "None" } ∧
    cache_params_string probeParams =
      cache_params_string { probeParams with selector := some "None" } := by
  decide

/-! ## Cache store (src/cache_service.py)

The index maps a fingerprint to its entry; `files` is the backing file
system (which cached artifact paths currently exist).  The `copy_ok`
argument is the outcome of the `shutil.copy2` call. -/

structure CacheEntry where
  file_path : String
  timestamp : Int
  original_path : String
deriving DecidableEq

structure CacheService where
  cache_duration_hours : Int
  cache_index : String → Option CacheEntry
  files : String → Bool

/-- `pathlib.Path(p).suffix`: the extension (with its dot) of the final path
component, empty when there is none. -/
def path_suffix (p : String) : String :=
  let name := (p.splitOn "/").getLastD ""
  let parts := name.splitOn "."
  if parts.length ≤ 1 then "" else "." ++ parts.getLastD ""

/-- `CacheService.get_cached_screenshot`: absent entry, missing backing file
(entry evicted) and expiry strictly beyond the TTL (file deleted and entry
evicted) all yield `None`; otherwise the cached path. -/
def get_cached_screenshot (st : CacheService) (cache_key : String) (now : Int) :
    Option String × CacheService :=
  match st.cache_index cache_key with
  | none => (none, st)
  | some entry =>
    if st.files entry.file_path = false then
      (none,
        { st with cache_index := fun k => if k = cache_key then none else st.cache_index k })
    else if entry.timestamp + st.cache_duration_hours * 3600 < now then
      (none,
        { st with
          cache_index := fun k => if k = cache_key then none else st.cache_index k
          files := fun q => if q = entry.file_path then false else st.files q })
    else (some entry.file_path, st)

/-- `CacheService.cache_screenshot`: on a successful copy, record the entry
under the canonical path `cache/<key><ext>` and return it; on a copy failure
return the source path with the state unchanged. -/
def cache_screenshot (st : CacheService) (cache_key screenshot_path : String) (now : Int)
    (copy_ok : Bool) : String × CacheService :=
  let cached_filepath := "cache/" ++ cache_key ++ path_suffix screenshot_path
  if copy_ok then
    (cached_filepath,
      { st with
        cache_index := fun k =>
          if k = cache_key then some ⟨cached_filepath, now, screenshot_path⟩
          else st.cache_index k
        files := fun q => if q = cached_filepath then true else st.files q })
  else (screenshot_path, st)

/-- C7: a successful `cache_screenshot` followed by an immediate
`get_cached_screenshot` of the same key returns the canonical cached path;
a lookup returns `None` when there is no index entry, when the backing file
is missing (evicting the entry), or when the entry is strictly older than
the TTL (evicting the entry and deleting the file). -/
theorem cache_round_trip_spec (st : CacheService) (key src : String) (now : Int)
    (hdur : 0 ≤ st.cache_duration_hours) :
    (get_cached_screenshot (cache_screenshot st key src now true).2 key now =
      (some (cache_screenshot st key src now true).1,
        (cache_screenshot st key src now true).2)) ∧
    (st.cache_index key = none → get_cached_screenshot st key now = (none, st)) ∧
    (∀ entry, st.cache_index key = some entry → st.files entry.file_path = false →
      (get_cached_screenshot st key now).1 = none ∧
      (get_cached_screenshot st key now).2.cache_index key = none ∧
      (get_cached_screenshot st key now).2.files = st.files) ∧
    (∀ entry, st.cache_index key = some entry → st.files entry.file_path = true →
      entry.timestamp + st.cache_duration_hours * 3600 < now →
      (get_cached_screenshot st key now).1 = none ∧
      (get_cached_screenshot st key now).2.cache_index key = none ∧
      (get_cached_screenshot st key now).2.files entry.file_path = false) := by
  refine ⟨?_, ?_, ?_, ?_⟩
  · have hnot : ¬ (now + st.cache_duration_hours * 3600 < now) := by omega
    simp [cache_screenshot, get_cached_screenshot, hnot]
  · intro h
    simp [get_cached_screenshot, h]
  · intro entry he hf
    simp [get_cached_screenshot, he, hf]
  · intro entry he hf hexp
    simp [get_cached_screenshot, he, hf, hexp]

/-- Concrete instantiation of `cache_round_trip_spec`: storing a fresh
screenshot under key "k" in an empty cache and reading it straight back. -/
theorem cache_round_trip_spec_witness :
    get_cached_screenshot
        (cache_screenshot (CacheService.mk 24 (fun _ => none) (fun _ => false))
          "k" "shot.png" 1000 true).2 "k" 1000 =
      (some (cache_screenshot (CacheService.mk 24 (fun _ => none) (fun _ => false))
          "k" "shot.png" 1000 true).1,
        (cache_screenshot (CacheService.mk 24 (fun _ => none) (fun _ => false))
          "k" "shot.png" 1000 true).2) :=
  (cache_round_trip_spec (CacheService.mk 24 (fun _ => none) (fun _ => false))
    "k" "shot.png" 1000 (by decide)).1

/-! ## Corrupt index recovery (src/cache_service.py `_load_cache_index`,
src/webhook_service.py `load_jobs`)

`json.load` is modelled as an abstract parse outcome: `none` when it raises
(unreadable or unparsable content), `some` of the decoded table otherwise.
Both loaders are total functions — the `except` handler turns any parse
failure into an empty table instead of propagating the exception. -/

def load_cache_index (file_exists : Bool) (parsed : Option (String → Option CacheEntry)) :
    String → Option CacheEntry :=
  if file_exists then
    match parsed with
    | some idx => idx
    | none => fun _ => none
  else fun _ => none

def load_jobs (current : String → Option Job) (file_exists : Bool)
    (parsed : Option (String → Option Job)) : String → Option Job :=
  if file_exists then
    match parsed with
    | some tbl => tbl
    | none => fun _ => none
  else current

/-- C9: for every parse outcome both loaders yield a well-defined table:
an unreadable/unparsable file yields the empty table (never an exception),
a parsed file yields its contents, a missing file yields the empty cache
index resp. leaves the in-memory jobs table (initialized empty) as is. -/
theorem load_recovery_spec (cacheExists jobsExists : Bool)
    (cacheParsed : Option (String → Option CacheEntry))
    (current : String → Option Job) (jobsParsed : Option (String → Option Job)) :
    (cacheParsed = none → load_cache_index cacheExists cacheParsed = fun _ => none) ∧
    (∀ idx, load_cache_index true (some idx) = idx) ∧
    (load_cache_index false cacheParsed = fun _ => none) ∧
    (jobsParsed = none → jobsExists = true →
      load_jobs current jobsExists jobsParsed = fun _ => none) ∧
    (∀ tbl, load_jobs current true (some tbl) = tbl) ∧
    (load_jobs current false jobsParsed = current) := by
  refine ⟨?_, ?_, ?_, ?_, ?_, ?_⟩
  · intro h
    subst h
    cases cacheExists <;> rfl
  · intro idx
    rfl
  · rfl
  · intro h hex
    subst h
    subst hex
    rfl
  · intro tbl
    rfl
  · rfl

/-- Concrete instantiation of `load_recovery_spec`: an existing but
unparsable cache index file and jobs file both load as the empty table. -/
theorem load_recovery_spec_witness :
    load_cache_index true none = (fun _ => none) ∧
    load_jobs (fun _ => none) true none = fun _ => none :=
  ⟨(load_recovery_spec true true none (fun _ => none) none).1 rfl,
    (load_recovery_spec true true none (fun _ => none) none).2.2.2.1 rfl rfl⟩

/-! ## Webhook signatures (src/webhook_service.py)

`hmacHex secret message` abstracts `hmac.new(secret, message, sha256)
.hexdigest()`; `canon` abstracts the canonical stable-key-order JSON
serialization `json.dumps(payload, sort_keys=True)`.  The claims hold up to
HMAC collisions, which appear as explicit hypotheses.
`hmac.compare_digest(a, b)` returns exactly whether `a == b`; its
constant-time evaluation strategy has no functional content, so the
comparison is modelled as Boolean string equality. -/

/-- `WebhookService._generate_signature`. -/
def generate_signature {α : Type} (hmacHex : String → String → String)
    (canon : α → String) (payload : α) (secret : String) : String :=
  hmacHex secret (canon payload)

/-- `WebhookService.verify_webhook_signature`: recompute the expected
signature and compare with `hmac.compare_digest`. -/
def verify_webhook_signature {α : Type} (hmacHex : String → String → String)
    (canon : α → String) (payload : α) (sig secret : String) : Bool :=
  sig == generate_signature hmacHex canon payload secret

/-- C8: verification accepts exactly the signature the dispatcher's own
signing function produces; for a payload whose signature differs (no HMAC
collision) or a secret producing a different signature, verification
rejects. -/
theorem verify_webhook_signature_spec {α : Type} (hmacHex : String → String → String)
    (canon : α → String) (payload : α) (secret : String) :
    verify_webhook_signature hmacHex canon payload
        (generate_signature hmacHex canon payload secret) secret = true ∧
    (∀ p2 : α, hmacHex secret (canon p2) ≠ hmacHex secret (canon payload) →
      verify_webhook_signature hmacHex canon p2
        (generate_signature hmacHex canon payload secret) secret = false) ∧
    (∀ s2 : String, hmacHex s2 (canon payload) ≠ hmacHex secret (canon payload) →
      verify_webhook_signature hmacHex canon payload
        (generate_signature hmacHex canon payload secret) s2 = false) := by
  refine ⟨?_, ?_, ?_⟩
  · simp [verify_webhook_signature, generate_signature]
  · intro p2 h
    simp only [verify_webhook_signature, generate_signature, beq_eq_false_iff_ne, ne_eq]
    exact fun he => h he.symm
  · intro s2 h
    simp only [verify_webhook_signature, generate_signature, beq_eq_false_iff_ne, ne_eq]
    exact fun he => h he.symm

/-- Concrete instantiation of `verify_webhook_signature_spec` with an
injective stand-in keyed hash: the dispatcher's signature verifies, a
mutated payload is rejected. -/
theorem verify_webhook_signature_spec_witness :
    verify_webhook_signature (fun s m => s ++ "#" ++ m) (fun s : String => s) "body"
        (generate_signature (fun s m => s ++ "#" ++ m) (fun s : String => s) "body" "sec")
        "sec" = true ∧
    verify_webhook_signature (fun s m => s ++ "#" ++ m) (fun s : String => s) "tampered"
        (generate_signature (fun s m => s ++ "#" ++ m) (fun s : String => s) "body" "sec")
        "sec" = false :=
  ⟨(verify_webhook_signature_spec (fun s m => s ++ "#" ++ m) (fun s : String => s)
      "body" "sec").1,
    (verify_webhook_signature_spec (fun s m => s ++ "#" ++ m) (fun s : String => s)
      "body" "sec").2.1 "tampered" (by decide)⟩
